import Mathlib

/-!
Verification of the variable-substitution and shell-command execution pipeline
of the Obsidian shell-commands plugin: a shallow embedding of the source
modules (settings parsing of ignore-error codes, default-value configuration
fields, the environment variable provider, the shell-command configuration
factory) plus spec-modelled components that the provided sources only declare
or call (template parser, variable resolver, argument binder, output
dispatcher).
-/

namespace SC

/-! ## Shell command configuration (src/unnamed/part_000) -/

/-- Embeds interface ShellCommandConfiguration: a shell command string plus an alias. -/
structure ShellCommandConfiguration where
  shell_command : String
  «alias» : String
deriving DecidableEq, Repr

/-- Embeds newShellCommandConfiguration: builds a configuration from an optional
shell command string (defaulting to the empty string), with an empty alias. -/
def newShellCommandConfiguration (shell_command : String := "") : ShellCommandConfiguration :=
  { shell_command := shell_command
    «alias» := "" }

/-! ## Variable_Environment (src/src/variables/Variable_Environment.ts) -/

/-- process.env: the host environment, a partial map from names to values
(undefined entries are `none`). -/
abbrev EnvData : Type := String → Option String

/-- Embeds Variable_Environment.always_available: the provider is not always available. -/
def Variable_Environment.always_available : Bool := false

/-- Embeds Variable_Environment.isAvailable: `undefined !== process.env[arguments.variable]`. -/
def Variable_Environment.isAvailable (env : EnvData) (varName : String) : Bool :=
  (env varName).isSome

/-- The outcome of a provider's generateValue call: the produced value (`none` models
the null return) together with the error messages registered via newErrorMessage. -/
structure GeneratedValue where
  value : Option String
  errorMessages : List String
deriving DecidableEq, Repr

/-- The message text registered by Variable_Environment.generateValue when the
environment variable does not exist. -/
def Variable_Environment.missingMessage (varName : String) : String :=
  "Environment variable named \x27" ++ varName ++ "\x27 does not exist."

/-- Embeds Variable_Environment.generateValue: if isAvailable, return the
environment entry's value; otherwise register one error message and return null. -/
def Variable_Environment.generateValue (env : EnvData) (varName : String) : GeneratedValue :=
  if Variable_Environment.isAvailable env varName then
    { value := env varName, errorMessages := [] }
  else
    { value := none
      errorMessages := [Variable_Environment.missingMessage varName] }

/-! ## Ignore-error-codes parsing (src/src/settings/ExtraOptionsModal.ts, tabOutput) -/

/-- A decimal digit's value, `none` for non-digits (models the character classes
used by JavaScript parseInt). -/
def decDigit (c : Char) : Option Nat :=
  if 48 ≤ c.toNat ∧ c.toNat ≤ 57 then some (c.toNat - 48) else none

/-- A hexadecimal digit's value, `none` for non-digits. -/
def hexDigit (c : Char) : Option Nat :=
  if 48 ≤ c.toNat ∧ c.toNat ≤ 57 then some (c.toNat - 48)
  else if 97 ≤ c.toNat ∧ c.toNat ≤ 102 then some (c.toNat - 87)
  else if 65 ≤ c.toNat ∧ c.toNat ≤ 70 then some (c.toNat - 55)
  else none

/-- Value of the longest digit prefix in the given base; `none` when the prefix is
empty (models the NaN result of JavaScript parseInt on digit-free input). -/
def parseDigits (digitOf : Char → Option Nat) (base : Nat) (cs : List Char) : Option Nat :=
  let ds := cs.takeWhile (fun c => (digitOf c).isSome)
  if ds.isEmpty then none
  else some (ds.foldl (fun acc c => acc * base + (digitOf c).getD 0) 0)

/-- Magnitude part of JavaScript parseInt with unspecified radix: a 0x/0X prefix
selects base 16, otherwise base 10. -/
def parseIntMagnitude : List Char → Option Nat
  | '0' :: 'x' :: rest => parseDigits hexDigit 16 rest
  | '0' :: 'X' :: rest => parseDigits hexDigit 16 rest
  | cs => parseDigits decDigit 10 cs

/-- Models JavaScript parseInt (no radix argument) as called by the source:
optional sign, then the longest digit prefix; `none` models NaN. -/
def parseInt : List Char → Option Int
  | '-' :: rest => (parseIntMagnitude rest).map (fun n => -(n : Int))
  | '+' :: rest => (parseIntMagnitude rest).map (fun n => (n : Int))
  | cs => (parseIntMagnitude cs).map (fun n => (n : Int))

/-- Models JavaScript String.prototype.split(",") on the character list: every
comma is a separator; the empty string yields one empty entry. -/
def splitOnComma : List Char → List (List Char)
  | [] => [[]]
  | ',' :: rest => [] :: splitOnComma rest
  | c :: rest =>
    match splitOnComma rest with
    | seg :: segs => (c :: seg) :: segs
    | [] => [[c]]

/-- Whitespace as removed by JavaScript String.prototype.trim. -/
def isWhitespaceChar (c : Char) : Bool :=
  c = ' ' ∨ c = '\t' ∨ c = '\n' ∨ c = '\r'

/-- Models JavaScript String.prototype.trim: strip whitespace from both ends. -/
def trimChars (cs : List Char) : List Char :=
  ((cs.dropWhile isWhitespaceChar).reverse.dropWhile isWhitespaceChar).reverse

/-- The per-entry validation of the tabOutput loop body: parseInt the trimmed raw
entry; keep the candidate only when it is not NaN and is ≥ 0. -/
def validateErrorCode (raw_error_code : List Char) : Option Int :=
  match parseInt (trimChars raw_error_code) with
  | none => none
  | some error_code_candidate =>
    if 0 ≤ error_code_candidate then some error_code_candidate else none

/-- Embeds the onChange handler of the "Ignore error codes" field: split the text
on commas, parseInt each trimmed entry, and push it onto ignore_error_codes only
when it is not NaN and not negative. -/
def parseIgnoreErrorCodes (value : String) : List Int :=
  (splitOnComma value.data).foldl
    (fun ignore_error_codes raw_error_code =>
      match parseInt (trimChars raw_error_code) with
      | none => ignore_error_codes
      | some error_code_candidate =>
        if 0 ≤ error_code_candidate then ignore_error_codes ++ [error_code_candidate]
        else ignore_error_codes)
    []

/-! ## Default value configuration fields
(src/src/variables/ShellCommandVariable_Workspace.ts second part:
createVariableDefaultValueFields) -/

/-- The kind of target object a default-value field edits: a shell command
(command scope) or a built-in/custom variable (global scope). -/
inductive TargetType
  | tShellCommand
  | builtinVariable
  | customVariable
deriving DecidableEq, Repr

/-- A stored default-value configuration: a type (policy) string and a literal
value (meaningful for the "value" type). -/
structure VariableDefaultValueConfiguration where
  type : String
  value : String
deriving DecidableEq, Repr

/-- Embeds defaultValueTypeOptions of createVariableDefaultValueFields: the
dropdown keys; the "inherit" entry is kept for shell commands and deleted for
built-in and custom variables. -/
def defaultValueTypeOptionKeys : TargetType → List String
  | TargetType.tShellCommand => ["inherit", "show-errors", "cancel-silently", "value"]
  | TargetType.builtinVariable => ["show-errors", "cancel-silently", "value"]
  | TargetType.customVariable => ["show-errors", "cancel-silently", "value"]

/-- Embeds createDefaultValueConfiguration: a freshly created configuration has
type "show-errors" and an empty value. -/
def createDefaultValueConfiguration : VariableDefaultValueConfiguration :=
  { type := "show-errors", value := "" }

/-- Embeds the type-dropdown onChange of createVariableDefaultValueFields: create
the configuration when absent, store the new type, then clean up the stored entry
(shell commands: delete when "inherit" with an empty value; variables: delete when
"show-errors" with an empty value). Returns the configuration stored afterwards. -/
def onChangeDefaultValueType (targetType : TargetType)
    (current : Option VariableDefaultValueConfiguration) (newType : String) :
    Option VariableDefaultValueConfiguration :=
  let cfg := current.getD createDefaultValueConfiguration
  let cfg := { cfg with type := newType }
  match targetType with
  | TargetType.tShellCommand =>
    if newType = "inherit" ∧ cfg.value = "" then none else some cfg
  | TargetType.builtinVariable =>
    if newType = "show-errors" ∧ cfg.value = "" then none else some cfg
  | TargetType.customVariable =>
    if newType = "show-errors" ∧ cfg.value = "" then none else some cfg

/-! ## Variable resolver: default-value lookup and unavailability (spec §4.2) -/

/-- Modelled from the spec: the Variable Resolver's effective default-value
lookup; the resolver itself is not among the provided source files, only its
settings-UI callers are. Spec §4.2 step 3: look up the DefaultValueConfiguration
for (variable identifier, defaultsScope = this command) — if absent or Inherit,
fall back to the provider's globalDefaultValueConfiguration; if that too is
absent, the effective policy is ShowErrors. -/
def effectiveDefaultValueConfiguration
    (commandScope globalScope : Option VariableDefaultValueConfiguration) :
    VariableDefaultValueConfiguration :=
  match commandScope with
  | some cfg =>
    if cfg.type = "inherit" then globalScope.getD createDefaultValueConfiguration
    else cfg
  | none => globalScope.getD createDefaultValueConfiguration

/-- A resolution outcome for one invocation token (spec §4.2): either a resolved
segment, or a VariableUnavailable resolution error (visible or silent) that
aborts the whole command, so no command is composed or executed. -/
inductive ResolutionOutcome
  | resolved (text : String) (unescaped : Bool)
  | variableUnavailable (variableName : String) (message : String) (silent : Bool)
deriving DecidableEq, Repr

/-- Modelled from the spec: applying the effective default-value policy when a
provider is unavailable or generation yields no value (spec §4.2 step 3):
"value" substitutes the literal value and continues; "cancel-silently" fails
with the silent variant; "show-errors" (also the fallback) fails visibly. -/
def applyDefaultValuePolicy (variableName message : String) (unescaped : Bool)
    (commandScope globalScope : Option VariableDefaultValueConfiguration) :
    ResolutionOutcome :=
  let eff := effectiveDefaultValueConfiguration commandScope globalScope
  if eff.type = "value" then ResolutionOutcome.resolved eff.value unescaped
  else if eff.type = "cancel-silently" then
    ResolutionOutcome.variableUnavailable variableName message true
  else ResolutionOutcome.variableUnavailable variableName message false

/-- Modelled from the spec: the Variable Resolver's handling of one
environment-variable invocation (spec §4.2 steps 3–4), with availability and
value generation embedded from Variable_Environment: always_available is false,
so isAvailable is queried; when unavailable, or when generation yields null, the
default-value policy is applied; otherwise the generated value resolves the
segment. -/
def resolveEnvironmentInvocation (env : EnvData) (varName : String) (unescaped : Bool)
    (commandScope globalScope : Option VariableDefaultValueConfiguration) :
    ResolutionOutcome :=
  if Variable_Environment.isAvailable env varName then
    match (Variable_Environment.generateValue env varName).value with
    | some text => ResolutionOutcome.resolved text unescaped
    | none =>
      applyDefaultValuePolicy "environment" (Variable_Environment.missingMessage varName)
        unescaped commandScope globalScope
  else
    applyDefaultValuePolicy "environment" (Variable_Environment.missingMessage varName)
      unescaped commandScope globalScope

/-! ## Parameter schemas and argument binding (spec §4.2 step 2;
src/src/variables/Variable_Environment.ts and the ShellCommandVariable_FilePath
part of src/src/events/SC_Event_FileRenamed.ts) -/

/-- One entry of a provider's parameter schema (one IParameters member): a name,
an optional list of allowed values (options), and a required flag. -/
structure ParameterSpec where
  name : String
  options : Option (List String)
  required : Bool
deriving DecidableEq, Repr

/-- Embeds Variable_Environment.parameters: one required string parameter named
"variable". -/
def Variable_Environment.parameters : List ParameterSpec :=
  [{ name := "variable", options := none, required := true }]

/-- Embeds ShellCommandVariable_FilePath.parameters: one required parameter named
"mode" whose allowed values are "absolute" and "relative". -/
def ShellCommandVariable_FilePath.parameters : List ParameterSpec :=
  [{ name := "mode", options := some ["absolute", "relative"], required := true }]

/-- The reasons of an InvalidArguments resolution error. -/
inductive BindError
  | excessArguments
  | missingRequired (name : String)
  | valueNotAllowed (name : String) (given : String)
deriving DecidableEq, Repr

/-- Modelled from the spec: positional binding of the remaining rawArguments to
the remaining schema entries — a missing required argument errors, an omitted
non-required parameter is skipped (the provider supplies its implicit default),
and an argument outside a parameter's allowed options errors. -/
def bindArgumentsPositional :
    List ParameterSpec → List String → Except BindError (List (String × String))
  | [], [] => Except.ok []
  | [], _ :: _ => Except.error BindError.excessArguments
  | p :: ps, [] =>
    if p.required then Except.error (BindError.missingRequired p.name)
    else bindArgumentsPositional ps []
  | p :: ps, a :: rest =>
    let allowed : Bool :=
      match p.options with
      | some opts => opts.contains a
      | none => true
    if allowed then
      match bindArgumentsPositional ps rest with
      | Except.ok bound => Except.ok ((p.name, a) :: bound)
      | Except.error e => Except.error e
    else Except.error (BindError.valueNotAllowed p.name a)

/-- Modelled from the spec: binding rawArguments against parameterSchema
(spec §4.2 step 2 and the §3 invariant): rawArguments.length is validated
against the schema — excess arguments error — then the arguments are bound
positionally. The binder itself is not among the provided source files; the
schemas are. -/
def bindArguments (schema : List ParameterSpec) (rawArguments : List String) :
    Except BindError (List (String × String)) :=
  if schema.length < rawArguments.length then Except.error BindError.excessArguments
  else bindArgumentsPositional schema rawArguments

/-! ## Execution result and output dispatch (spec §3, §4.5;
settings descriptions in src/src/settings/ExtraOptionsModal.ts tabOutput) -/

/-- Embeds ExecutionResult (spec §3): the recorded exit code (`none` models a
launch failure) and the captured stdout and stderr texts. -/
structure ExecutionResult where
  exitCode : Option Int
  stdout : String
  stderr : String
deriving DecidableEq, Repr

/-- The two settings of the "Order of stdout/stderr output" dropdown
("stdout-first" / "stderr-first"). -/
inductive OutputChannelOrder
  | stdoutFirst
  | stderrFirst
deriving DecidableEq, Repr

/-- Whether error presentation is suppressed: the process exited with a non-zero
code that is a member of the command's ignore_error_codes list (tabOutput: "If
executing a shell command fails with one of these exit codes, no error message
will be displayed, and the above stderr channel will be ignored"). -/
def isErrorIgnored (exitCode : Option Int) (ignore_error_codes : List Int) : Bool :=
  match exitCode with
  | some code => code ≠ 0 ∧ code ∈ ignore_error_codes
  | none => false

/-- Modelled from the spec: the Output Dispatcher (spec §4.5) together with the
ignore-error-codes behaviour described in tabOutput; the dispatcher itself is
not among the provided source files. When the exit code is ignored the stderr
channel is ignored while the stdout channel is still used; when both streams use
the same channel their texts are combined into one sink invocation in the
configured order; different channels are served independently. Returns the sink
invocations as (channel, text) pairs. -/
def dispatchOutput (result : ExecutionResult) (stdoutChannel stderrChannel : String)
    (order : OutputChannelOrder) (ignore_error_codes : List Int) :
    List (String × String) :=
  let presentStderr := !(isErrorIgnored result.exitCode ignore_error_codes)
  if stdoutChannel = stderrChannel then
    let text :=
      if presentStderr then
        match order with
        | OutputChannelOrder.stdoutFirst => result.stdout ++ result.stderr
        | OutputChannelOrder.stderrFirst => result.stderr ++ result.stdout
      else result.stdout
    [(stdoutChannel, text)]
  else
    (stdoutChannel, result.stdout) ::
      (if presentStderr then [(stderrChannel, result.stderr)] else [])

/-! ## Template parser (spec §4.1, modelled from the spec: the Template Parser
is not among the provided source files) -/

/-- A parsed template token (spec §3): literal text, or a variable invocation
with name, raw arguments, unescaped flag and its original source span. -/
inductive Token
  | literal (text : List Char)
  | invocation (variableName : List Char) (rawArguments : List (List Char))
      (unescaped : Bool) (sourceSpan : List Char)
deriving DecidableEq, Repr

/-- The source span of a token: the literal text verbatim, or the invocation's
original braced span. -/
def Token.span : Token → List Char
  | Token.literal text => text
  | Token.invocation _ _ _ sourceSpan => sourceSpan

/-- Concatenation of the source spans of a token sequence, in order. -/
def spanConcat (tokens : List Token) : List Char :=
  tokens.foldr (fun tok acc => tok.span ++ acc) []

/-- Splits an invocation's content on the ":" argument delimiter; segments are
taken verbatim (the delimiter has no escape mechanism). -/
def splitOnColon : List Char → List (List Char)
  | [] => [[]]
  | ':' :: rest => [] :: splitOnColon rest
  | c :: rest =>
    match splitOnColon rest with
    | seg :: segs => (c :: seg) :: segs
    | [] => [[c]]

/-- Modelled from the spec: build an Invocation token from the body between the
opening and closing double braces (spec §4.1): a leading exclamation mark sets
unescaped without becoming part of the name; the remainder up to the first colon
is the variable name; later colon-delimited segments are the raw arguments; the
source span is the whole original braced text. -/
def mkInvocation (body : List Char) : Token :=
  let unescaped : Bool :=
    match body with
    | '!' :: _ => true
    | _ => false
  let content : List Char :=
    match body with
    | '!' :: rest => rest
    | _ => body
  let segments := splitOnColon content
  Token.invocation (segments.headD []) segments.tail unescaped
    ('{' :: '{' :: body ++ ['}', '}'])

/-- Modelled from the spec: scan an invocation's body after the opening double
brace up to the terminating double brace (spec §4.1); a nested opening double
brace is a parse error, as is reaching the end of input unterminated. Returns
the body and the remaining input. -/
def parseInvocationBody : List Char → Option (List Char × List Char)
  | [] => none
  | '}' :: '}' :: rest => some ([], rest)
  | '{' :: '{' :: _ => none
  | c :: rest =>
    match parseInvocationBody rest with
    | some (body, remaining) => some (c :: body, remaining)
    | none => none

/-- Prepend a literal character onto a token sequence, merging it into a leading
literal token so adjacent literal text forms one verbatim token. -/
def consLiteral (c : Char) : List Token → List Token
  | Token.literal text :: tokens => Token.literal (c :: text) :: tokens
  | tokens => Token.literal [c] :: tokens

/-- Modelled from the spec: the Template Parser's single left-to-right scan
(spec §4.1): an invocation begins at an opening double brace and ends at the
matching closing double brace; all other characters become literal tokens
verbatim, including unmatched single braces; `none` models a ParseError. The
fuel argument bounds the recursion by the input length. -/
def parseTemplateGo : Nat → List Char → Option (List Token)
  | _, [] => some []
  | 0, _ :: _ => none
  | Nat.succ fuel, '{' :: '{' :: rest =>
    match parseInvocationBody rest with
    | none => none
    | some (body, remaining) =>
      match parseTemplateGo fuel remaining with
      | none => none
      | some tokens => some (mkInvocation body :: tokens)
  | Nat.succ fuel, c :: rest =>
    match parseTemplateGo fuel rest with
    | none => none
    | some tokens => some (consLiteral c tokens)

/-- Modelled from the spec: parse(template) — the Template Parser's contract;
`none` models a ParseError. -/
def parse (template : String) : Option (List Token) :=
  parseTemplateGo template.data.length template.data

/-! ## Helper lemmas -/

/-- A successfully scanned invocation body together with the closing double
brace and the remaining input reassembles the scanned text. -/
theorem parseInvocationBody_span (cs : List Char) :
    ∀ body remaining, parseInvocationBody cs = some (body, remaining) →
      cs = body ++ '}' :: '}' :: remaining := by
  induction cs using parseInvocationBody.induct with
  | case1 =>
    intro body remaining h
    exact absurd h (by simp [parseInvocationBody])
  | case2 rest =>
    intro body remaining h
    rw [parseInvocationBody] at h
    injection h with h
    injection h with h1 h2
    rw [← h1, ← h2]
    rfl
  | case3 rest =>
    intro body remaining h
    exact absurd h (by simp [parseInvocationBody])
  | case4 c rest h1 h2 b r hsome ih =>
    intro body remaining h
    rw [parseInvocationBody, hsome] at h
    · injection h with h
      injection h with ha hb
      subst ha
      subst hb
      rw [ih b r hsome]
      rfl
    · exact h1
    · exact h2
  | case5 c rest h1 h2 hnone =>
    intro body remaining h
    rw [parseInvocationBody, hnone] at h
    · exact absurd h (by simp)
    · exact h1
    · exact h2

/-- Prepending a literal character prepends exactly that character to the
reconstructed text. -/
theorem spanConcat_consLiteral (c : Char) (tokens : List Token) :
    spanConcat (consLiteral c tokens) = c :: spanConcat tokens := by
  cases tokens with
  | nil => rfl
  | cons t ts => cases t <;> rfl

/-- The source span of a built invocation token is the original braced text. -/
theorem mkInvocation_span (body : List Char) :
    (mkInvocation body).span = '{' :: '{' :: body ++ ['}', '}'] := rfl

/-- The scanner's reconstruction property: any token sequence it produces
reassembles, span by span, to exactly the scanned input. -/
theorem parseTemplateGo_span (fuel : Nat) :
    ∀ cs tokens, parseTemplateGo fuel cs = some tokens → spanConcat tokens = cs := by
  induction fuel with
  | zero =>
    intro cs tokens h
    cases cs with
    | nil =>
      rw [parseTemplateGo] at h
      injection h with h
      rw [← h]
      rfl
    | cons c rest => exact absurd h (by rw [parseTemplateGo]; simp)
  | succ fuel ih =>
    intro cs tokens h
    rw [parseTemplateGo.eq_def] at h
    split at h
    · injection h with h
      rw [← h]
      rfl
    · exact absurd h (by simp)
    · rename_i fuel2 rest hfuel
      injection hfuel with hfuel
      subst hfuel
      cases hb : parseInvocationBody rest with
      | none => rw [hb] at h; exact absurd h (by simp)
      | some pair =>
        obtain ⟨body, remaining⟩ := pair
        rw [hb] at h
        dsimp only at h
        cases hr : parseTemplateGo fuel remaining with
        | none => rw [hr] at h; exact absurd h (by simp)
        | some tokens2 =>
          rw [hr] at h
          injection h with h
          rw [← h]
          show (mkInvocation body).span ++ spanConcat tokens2 = _
          rw [mkInvocation_span, ih remaining tokens2 hr,
            parseInvocationBody_span rest body remaining hb]
          simp
    · rename_i fuel2 c rest h1 hfuel
      injection hfuel with hfuel
      subst hfuel
      cases hr : parseTemplateGo fuel rest with
      | none => rw [hr] at h; exact absurd h (by simp)
      | some tokens2 =>
        rw [hr] at h
        injection h with h
        rw [← h, spanConcat_consLiteral, ih rest tokens2 hr]

/-- The ignore-error-codes fold with any accumulator appends exactly the entries
that pass validation. -/
theorem foldl_ignoreErrorCodes_eq (rows : List (List Char)) (acc : List Int) :
    rows.foldl
      (fun ignore_error_codes raw_error_code =>
        match parseInt (trimChars raw_error_code) with
        | none => ignore_error_codes
        | some error_code_candidate =>
          if 0 ≤ error_code_candidate then ignore_error_codes ++ [error_code_candidate]
          else ignore_error_codes)
      acc
    = acc ++ rows.filterMap validateErrorCode := by
  induction rows generalizing acc with
  | nil => simp
  | cons raw rest ih =>
    simp only [List.foldl_cons, List.filterMap_cons]
    cases h : parseInt (trimChars raw) with
    | none => simp [validateErrorCode, h, ih]
    | some c =>
      by_cases hc : 0 ≤ c
      · simp [validateErrorCode, h, hc, ih]
      · simp [validateErrorCode, h, hc, ih]

/-- A value kept by the per-entry validation is non-negative. -/
theorem validateErrorCode_nonneg (raw : List Char) (code : Int)
    (h : validateErrorCode raw = some code) : 0 ≤ code := by
  unfold validateErrorCode at h
  split at h
  · exact absurd h (by simp)
  · split at h
    · next hc =>
      cases h
      exact hc
    · exact absurd h (by simp)

/-! ## Theorems about the claims -/

/-- C10: for every string s, newShellCommandConfiguration s has shell_command = s
and an empty alias; called with no argument, shell_command is also empty. -/
theorem newShellCommandConfiguration_spec (s : String) :
    (newShellCommandConfiguration s).shell_command = s
    ∧ (newShellCommandConfiguration s).«alias» = ""
    ∧ (newShellCommandConfiguration : ShellCommandConfiguration).shell_command = ""
    ∧ (newShellCommandConfiguration : ShellCommandConfiguration).«alias» = "" :=
  ⟨rfl, rfl, rfl, rfl⟩

/-- C9: Variable_Environment.isAvailable is true exactly when process.env has a
defined entry for the bound variable argument; generateValue returns that entry's
value when available, and otherwise returns null while registering exactly one
error message naming the missing environment variable. -/
theorem environment_variable_spec (env : EnvData) (varName : String) :
    (Variable_Environment.isAvailable env varName = true ↔ (env varName).isSome = true)
    ∧ (Variable_Environment.generateValue env varName).value = env varName
    ∧ (Variable_Environment.generateValue env varName).errorMessages
        = (if (env varName).isSome then []
           else [Variable_Environment.missingMessage varName]) := by
  refine ⟨Iff.rfl, ?_, ?_⟩ <;>
  · unfold Variable_Environment.generateValue Variable_Environment.isAvailable
    cases h : env varName <;> simp [h]

/-- C5: the stored ignore_error_codes list is exactly the comma-separated entries
that pass the parseInt / non-NaN / non-negative validation, in order, and every
stored code is an integer ≥ 0. -/
theorem ignoreErrorCodes_validated (value : String) :
    parseIgnoreErrorCodes value = (splitOnComma value.data).filterMap validateErrorCode
    ∧ ∀ code ∈ parseIgnoreErrorCodes value, 0 ≤ code := by
  have h : parseIgnoreErrorCodes value
      = (splitOnComma value.data).filterMap validateErrorCode := by
    unfold parseIgnoreErrorCodes
    simpa using foldl_ignoreErrorCodes_eq (splitOnComma value.data) []
  refine ⟨h, ?_⟩
  intro code hmem
  rw [h] at hmem
  rcases List.mem_filterMap.mp hmem with ⟨raw, _, hval⟩
  exact validateErrorCode_nonneg raw code hval

/-- C5 witness: on the concrete input "2, x, -1, 0x10" the stored list is [2, 16]
(the non-numeric and negative entries are discarded), and the kept code 2 is ≥ 0. -/
theorem ignoreErrorCodes_validated_witness :
    parseIgnoreErrorCodes "2, x, -1, 0x10" = [2, 16] ∧ (0 : Int) ≤ 2 :=
  ⟨by decide, (ignoreErrorCodes_validated "2, x, -1, 0x10").2 2 (by decide)⟩

/-- C4: at the global (built-in or custom variable) scope the "inherit" policy is
not among the offered dropdown options, a freshly created configuration is
"show-errors", and every configuration the dropdown's onChange stores at global
scope has a type other than "inherit"; "inherit" is offered only at the
per-command scope. -/
theorem globalDefault_never_inherit (targetType : TargetType)
    (current : Option VariableDefaultValueConfiguration) (newType : String)
    (htarget : targetType = TargetType.builtinVariable ∨ targetType = TargetType.customVariable)
    (hopt : newType ∈ defaultValueTypeOptionKeys targetType) :
    "inherit" ∉ defaultValueTypeOptionKeys TargetType.builtinVariable
    ∧ "inherit" ∉ defaultValueTypeOptionKeys TargetType.customVariable
    ∧ "inherit" ∈ defaultValueTypeOptionKeys TargetType.tShellCommand
    ∧ createDefaultValueConfiguration.type ≠ "inherit"
    ∧ ∀ cfg, onChangeDefaultValueType targetType current newType = some cfg →
        cfg.type ≠ "inherit" := by
  refine ⟨by decide, by decide, by decide, by decide, ?_⟩
  intro cfg hcfg
  have hne : newType ≠ "inherit" := by
    rcases htarget with h | h <;> subst h <;>
      simp only [defaultValueTypeOptionKeys, List.mem_cons, List.not_mem_nil, or_false] at hopt <;>
      rcases hopt with rfl | rfl | rfl <;> decide
  rcases htarget with h | h <;> subst h <;>
  · unfold onChangeDefaultValueType at hcfg
    dsimp only at hcfg
    split at hcfg
    · exact absurd hcfg (by simp)
    · injection hcfg with h2
      rw [← h2]
      exact hne

/-- C4 witness: storing the "value" policy for a built-in variable at global scope
yields a stored type that is not "inherit". -/
theorem globalDefault_never_inherit_witness :
    ({ type := "value", value := "" } : VariableDefaultValueConfiguration).type ≠ "inherit" :=
  (globalDefault_never_inherit TargetType.builtinVariable none "value"
    (Or.inl rfl) (by decide)).2.2.2.2 { type := "value", value := "" } rfl

/-- C3: effective default-value resolution is a two-level lookup — a per-command
configuration that is absent or has type "inherit" falls back to the provider's
global configuration; if that is also absent the effective policy is
"show-errors"; a present non-"inherit" per-command configuration is used as is,
ignoring the global scope. -/
theorem effectiveDefault_two_level
    (commandScope globalScope : Option VariableDefaultValueConfiguration)
    (cfg : VariableDefaultValueConfiguration) :
    ((commandScope = none ∨ (commandScope = some cfg ∧ cfg.type = "inherit")) →
      effectiveDefaultValueConfiguration commandScope globalScope
        = globalScope.getD createDefaultValueConfiguration)
    ∧ (commandScope = some cfg → cfg.type ≠ "inherit" →
      effectiveDefaultValueConfiguration commandScope globalScope = cfg)
    ∧ effectiveDefaultValueConfiguration none none = createDefaultValueConfiguration
    ∧ createDefaultValueConfiguration.type = "show-errors" := by
  refine ⟨?_, ?_, rfl, rfl⟩
  · rintro (rfl | ⟨rfl, hinherit⟩)
    · rfl
    · unfold effectiveDefaultValueConfiguration
      dsimp only
      rw [if_pos hinherit]
  · rintro rfl hnotinherit
    unfold effectiveDefaultValueConfiguration
    dsimp only
    rw [if_neg hnotinherit]

/-- C3 witness: a per-command "inherit" configuration falls back to the global
"value" configuration. -/
theorem effectiveDefault_two_level_witness :
    effectiveDefaultValueConfiguration
      (some { type := "inherit", value := "" })
      (some { type := "value", value := "fallback" })
      = { type := "value", value := "fallback" } :=
  (effectiveDefault_two_level
    (some { type := "inherit", value := "" })
    (some { type := "value", value := "fallback" })
    { type := "inherit", value := "" }).1 (Or.inr ⟨rfl, rfl⟩)

/-- C2: the environment-variable provider is not always available, and with no
configured default (neither per-command nor global) an unavailable state always
resolves to the visible VariableUnavailable error — never to a resolved segment
(in particular never to one with an empty substitution), so no command is
composed or executed. -/
theorem environment_unavailable_no_default
    (env : EnvData) (varName : String) (unescaped : Bool)
    (hunavail : env varName = none) :
    Variable_Environment.always_available = false
    ∧ resolveEnvironmentInvocation env varName unescaped none none
        = ResolutionOutcome.variableUnavailable "environment"
            (Variable_Environment.missingMessage varName) false
    ∧ ∀ text u, resolveEnvironmentInvocation env varName unescaped none none
        ≠ ResolutionOutcome.resolved text u := by
  have h2 : resolveEnvironmentInvocation env varName unescaped none none
      = ResolutionOutcome.variableUnavailable "environment"
          (Variable_Environment.missingMessage varName) false := by
    unfold resolveEnvironmentInvocation Variable_Environment.isAvailable
    rw [hunavail]
    rfl
  exact ⟨rfl, h2, fun text u hres => by rw [h2] at hres; exact absurd hres (by simp)⟩

/-- C2 witness: with an empty host environment, resolving the MY_VAR invocation
with no configured defaults yields the visible VariableUnavailable error. -/
theorem environment_unavailable_no_default_witness :
    resolveEnvironmentInvocation (fun _ => none) "MY_VAR" false none none
      = ResolutionOutcome.variableUnavailable "environment"
          (Variable_Environment.missingMessage "MY_VAR") false :=
  (environment_unavailable_no_default (fun _ => none) "MY_VAR" false rfl).2.1

/-- C6: positional binding against the parameter schema fails with an
InvalidArguments reason on excess arguments (for every schema), fails when a
required parameter is missing or outside its allowed values — "variable" for the
environment provider, "mode" for the file-path provider — succeeds on allowed
values, and an omitted non-required parameter is no error (the provider's
implicit default applies). -/
theorem bindArguments_validation
    (schema : List ParameterSpec) (rawArguments : List String)
    (hexcess : schema.length < rawArguments.length) :
    bindArguments schema rawArguments = Except.error BindError.excessArguments
    ∧ bindArguments Variable_Environment.parameters []
        = Except.error (BindError.missingRequired "variable")
    ∧ bindArguments Variable_Environment.parameters ["PATH"]
        = Except.ok [("variable", "PATH")]
    ∧ bindArguments ShellCommandVariable_FilePath.parameters []
        = Except.error (BindError.missingRequired "mode")
    ∧ bindArguments ShellCommandVariable_FilePath.parameters ["upward"]
        = Except.error (BindError.valueNotAllowed "mode" "upward")
    ∧ bindArguments ShellCommandVariable_FilePath.parameters ["absolute"]
        = Except.ok [("mode", "absolute")]
    ∧ bindArguments [{ name := "opt", options := none, required := false }] []
        = Except.ok [] := by
  refine ⟨?_, rfl, rfl, rfl, rfl, rfl, rfl⟩
  unfold bindArguments
  rw [if_pos hexcess]

/-- C6 witness: one argument against the empty schema is an excess-arguments
error. -/
theorem bindArguments_validation_witness :
    bindArguments [] ["excess"] = Except.error BindError.excessArguments :=
  (bindArguments_validation [] ["excess"] (by decide)).1

/-- C1: when the exit code is a member of the ignore-error-codes set (and
non-zero), dispatch suppresses only the stderr-channel presentation — with both
streams on one sink the sink receives stdout's text alone, with distinct sinks
only the stdout sink is served — and the recorded ExecutionResult.exitCode is
unchanged. -/
theorem ignoredExitCode_suppresses_stderr_only
    (result : ExecutionResult) (code : Int) (stdoutChannel stderrChannel : String)
    (order : OutputChannelOrder) (ignore_error_codes : List Int)
    (hcode : result.exitCode = some code) (hmem : code ∈ ignore_error_codes)
    (hnz : code ≠ 0) :
    dispatchOutput result stdoutChannel stdoutChannel order ignore_error_codes
      = [(stdoutChannel, result.stdout)]
    ∧ (stdoutChannel ≠ stderrChannel →
        dispatchOutput result stdoutChannel stderrChannel order ignore_error_codes
          = [(stdoutChannel, result.stdout)])
    ∧ result.exitCode = some code := by
  have hig : isErrorIgnored result.exitCode ignore_error_codes = true := by
    rw [hcode]
    unfold isErrorIgnored
    simp [hmem, hnz]
  refine ⟨?_, ?_, hcode⟩
  · unfold dispatchOutput
    rw [if_pos rfl, hig]
    rfl
  · intro hne
    unfold dispatchOutput
    rw [if_neg hne, hig]
    rfl

/-- C1 witness: the spec's example — exit code 2 with ignore-list [2, 3], stdout
"ok", stderr "warn", both streams on the sink "sink" with order StdoutFirst —
yields sink text "ok" only, while the recorded exit code remains 2. -/
theorem ignoredExitCode_suppresses_stderr_only_witness :
    dispatchOutput { exitCode := some 2, stdout := "ok", stderr := "warn" }
      "sink" "sink" OutputChannelOrder.stdoutFirst [2, 3]
      = [("sink", "ok")]
    ∧ ({ exitCode := some 2, stdout := "ok", stderr := "warn" }
        : ExecutionResult).exitCode = some 2 :=
  ⟨(ignoredExitCode_suppresses_stderr_only
      { exitCode := some 2, stdout := "ok", stderr := "warn" } 2 "sink" "sink"
      OutputChannelOrder.stdoutFirst [2, 3] rfl (by decide) (by decide)).1,
   (ignoredExitCode_suppresses_stderr_only
      { exitCode := some 2, stdout := "ok", stderr := "warn" } 2 "sink" "sink"
      OutputChannelOrder.stdoutFirst [2, 3] rfl (by decide) (by decide)).2.2⟩

/-- C7: when stderr presentation is not suppressed, two streams on the same sink
produce a single sink invocation whose text is the concatenation in the
configured order; streams on different sinks are dispatched independently and
the order setting has no effect on the result. -/
theorem dispatch_order_and_combining
    (result : ExecutionResult) (stdoutChannel stderrChannel : String)
    (order : OutputChannelOrder) (ignore_error_codes : List Int)
    (hpresent : isErrorIgnored result.exitCode ignore_error_codes = false) :
    dispatchOutput result stdoutChannel stdoutChannel order ignore_error_codes
      = [(stdoutChannel,
          match order with
          | OutputChannelOrder.stdoutFirst => result.stdout ++ result.stderr
          | OutputChannelOrder.stderrFirst => result.stderr ++ result.stdout)]
    ∧ (stdoutChannel ≠ stderrChannel →
        dispatchOutput result stdoutChannel stderrChannel order ignore_error_codes
          = [(stdoutChannel, result.stdout), (stderrChannel, result.stderr)]
        ∧ dispatchOutput result stdoutChannel stderrChannel order ignore_error_codes
          = dispatchOutput result stdoutChannel stderrChannel
              OutputChannelOrder.stdoutFirst ignore_error_codes) := by
  constructor
  · unfold dispatchOutput
    rw [if_pos rfl, hpresent]
    rfl
  · intro hne
    constructor
    · unfold dispatchOutput
      rw [if_neg hne, hpresent]
      rfl
    · unfold dispatchOutput
      rw [if_neg hne, if_neg hne, hpresent]

/-- C7 witness: exit code 0, stdout "out", stderr "err" — the shared sink "s"
receives the single text "errout" under StderrFirst, and with distinct sinks "a"
and "b" the two streams are dispatched independently, identically for both order
settings. -/
theorem dispatch_order_and_combining_witness :
    dispatchOutput { exitCode := some 0, stdout := "out", stderr := "err" }
      "s" "s" OutputChannelOrder.stderrFirst []
      = [("s", "err" ++ "out")]
    ∧ dispatchOutput { exitCode := some 0, stdout := "out", stderr := "err" }
        "a" "b" OutputChannelOrder.stderrFirst []
        = [("a", "out"), ("b", "err")] :=
  ⟨(dispatch_order_and_combining
      { exitCode := some 0, stdout := "out", stderr := "err" } "s" "s"
      OutputChannelOrder.stderrFirst [] (by decide)).1,
   ((dispatch_order_and_combining
      { exitCode := some 0, stdout := "out", stderr := "err" } "a" "b"
      OutputChannelOrder.stderrFirst [] (by decide)).2 (by decide)).1⟩

/-- C8: for every template string the parser accepts (balanced, non-nested
invocation syntax), re-concatenating the literal and invocation source spans of
the parsed token sequence in order reconstructs the original string exactly. -/
theorem parse_roundtrip (template : String) (tokens : List Token)
    (h : parse template = some tokens) :
    spanConcat tokens = template.data
    ∧ String.mk (spanConcat tokens) = template := by
  have h1 : spanConcat tokens = template.data :=
    parseTemplateGo_span template.data.length template.data tokens h
  exact ⟨h1, by rw [h1]⟩

/-- C8 witness: the template a\x7b\x7b!x:1\x7d\x7db parses to a literal, an
unescaped invocation of x with argument 1, and a literal; its spans reassemble
to the original string. -/
theorem parse_roundtrip_witness :
    String.mk (spanConcat
      [Token.literal ['a'],
       Token.invocation ['x'] [['1']] true ['{', '{', '!', 'x', ':', '1', '}', '}'],
       Token.literal ['b']])
      = "a\x7b\x7b!x:1\x7d\x7db" :=
  (parse_roundtrip "a\x7b\x7b!x:1\x7d\x7db"
    [Token.literal ['a'],
     Token.invocation ['x'] [['1']] true ['{', '{', '!', 'x', ':', '1', '}', '}'],
     Token.literal ['b']] rfl).2

end SC
